import Mathlib

/-!
# Aggregation translation of `sigma/evaluator/evaluate_aggregation.go`

A shallow embedding of the two methods of `RuleEvaluator` that turn a parsed
Sigma aggregation clause into a query fragment:

* `evaluateAggregationExpression` (the translator), and
* `evaluateAggregationFunc` (the renderer),

followed by the properties of the specification that are stated about them.

Go strings are embedded as `String`, a Go `(string, error)` result as a pair
`String × Option GoError` (`none` is the nil error), and the type switches as
pattern matches on inductive types that carry one extra constructor for every
dynamic type the switch does not list.
-/

namespace Alterix

/-! ## Data model -/

/-- A Go `error` built by `fmt.Errorf` from a constant format string: it is identified by
its message. -/
structure GoError where
  msg : String
deriving DecidableEq, Repr

/-- The error of line 17: `fmt.Errorf("near isn't supported yet")`. -/
def errNear : GoError := ⟨"near isn't supported yet"⟩

/-- The error of line 31: `fmt.Errorf("unknown aggregation expression")`. -/
def errUnknownExpression : GoError := ⟨"unknown aggregation expression"⟩

/-- The error of line 139: `fmt.Errorf("unsupported aggregation function")`. -/
def errUnsupportedFunc : GoError := ⟨"unsupported aggregation function"⟩

/-- Modelled from the spec: the `context.Context` argument, declared outside this file. The
specification calls it an opaque cancellation/trace context; neither method reads it. -/
structure Context where
  cancelled : Bool
  trace : String
deriving DecidableEq, Repr

/-- Modelled from the spec: the interface `sigma.AggregationFunc` and the struct types
`sigma.Count`, `sigma.Average`, `sigma.Sum`, `sigma.Min`, `sigma.Max`, declared in package
`sigma`. Each of the five carries the strings `Field` and `GroupedBy` that the renderer
reads. `other` stands for every dynamic type the type switch of line 38 does not list (the
nil interface included); its argument names that type. -/
inductive AggregationFunc where
  | Count (Field GroupedBy : String)
  | Average (Field GroupedBy : String)
  | Sum (Field GroupedBy : String)
  | Min (Field GroupedBy : String)
  | Max (Field GroupedBy : String)
  | other (typeName : String)
deriving DecidableEq, Repr

/-- Modelled from the spec: the field `Threshold` of `sigma.Comparison` is a floating-point
number. A finite floating-point number is a rational, so thresholds are rationals here. -/
abbrev Threshold := ℚ

/-- Modelled from the spec: the interface `sigma.AggregationExpr` with the struct types
`sigma.Near` and `sigma.Comparison`, declared in package `sigma`. The content of a `Near` is
not read by this file and is kept as one string. `Op` is the string type
`sigma.ComparisonOp`. `other` stands for every dynamic type the type switch of line 15 does
not list (the nil interface included). -/
inductive AggregationExpr where
  | Near (body : String)
  | Comparison (Func : AggregationFunc) (Op : String) (Threshold : Threshold)
  | other (typeName : String)
deriving DecidableEq

/-- Modelled from the spec: the receiver type `RuleEvaluator`, declared in another file of
the package. Only its `fieldmappings` table is read here: a Go `map[string][]string`, a
partial function from names to sequences of names. -/
structure RuleEvaluator where
  fieldmappings : String → Option (List String)

/-! ## Go primitives used by the two methods -/

/-- Go map indexing `m[k]` at type `map[string][]string`: the stored slice, or the nil slice
(of length 0) when the key is absent. -/
def mapIndex (m : String → Option (List String)) (k : String) : List String :=
  match m k with
  | some v => v
  | none => []

/-- Go slice indexing `xs[0]`, used by the source only under the guard `len(xs) != 0`. -/
def index0 (xs : List String) (h : xs.length ≠ 0) : String :=
  xs.get ⟨0, Nat.pos_of_ne_zero h⟩

/-- Go conversion `int(x)` of a floating-point number to the 64-bit machine `int`: the
fraction is discarded (truncation toward zero) and the result is that integer whenever it
lies between -9223372036854775808 and 9223372036854775807. For a number whose truncation
is outside that range the language leaves the value to the implementation; the gc compiler
on amd64 yields the smallest `int`, -9223372036854775808, and that is the value kept here. -/
def goInt (x : Threshold) : Int :=
  let z := Int.tdiv x.num (x.den : Int)
  if -9223372036854775808 ≤ z ∧ z < 9223372036854775808 then z else -9223372036854775808

/-- The text of `fmt.Sprintf("%d", n)` for a Go `int`: the decimal digits of the magnitude,
preceded by `-` when the number is negative. -/
def sprintfD (n : Int) : String :=
  if n < 0 then "-" ++ String.mk (Nat.toDigits 10 n.natAbs)
  else String.mk (Nat.toDigits 10 n.natAbs)

/-! ## The two methods -/

/-- Renderer, `evaluateAggregationFunc` (lines 36-141). Each branch of the type switch is kept
as written in the source; the assignments to `agg.Field` and `agg.GroupedBy` become shadowing
`let`s and the accumulation in `result` becomes concatenation. -/
def evaluateAggregationFunc (rule : RuleEvaluator) (_ctx : Context) (_conditionIndex : Int)
    (aggregation : AggregationFunc) : String × Option GoError :=
  let result : String := ""
  match aggregation with
  | .Count Field GroupedBy =>
    if Field = "" then
      let result := if GroupedBy ≠ "" then "select " ++ GroupedBy else result
      let result := result ++ ", count(*)|group having count(*)"
      (result, none)
    else
      let Field :=
        if h : (mapIndex rule.fieldmappings Field).length ≠ 0 then
          index0 (mapIndex rule.fieldmappings Field) h
        else Field
      let result := "select " ++ Field
      let result :=
        if GroupedBy ≠ "" then
          let GroupedBy :=
            if h : (mapIndex rule.fieldmappings GroupedBy).length ≠ 0 then
              index0 (mapIndex rule.fieldmappings GroupedBy) h
            else GroupedBy
          result ++ (", " ++ GroupedBy)
        else result
      let result := result ++ ", count(*)|group having count(*)"
      (result, none)
  | .Average Field GroupedBy =>
    let Field :=
      if h : (mapIndex rule.fieldmappings Field).length ≠ 0 then
        index0 (mapIndex rule.fieldmappings Field) h
      else Field
    let result := "select " ++ Field
    let result :=
      if GroupedBy ≠ "" then
        let GroupedBy :=
          if h : (mapIndex rule.fieldmappings GroupedBy).length ≠ 0 then
            index0 (mapIndex rule.fieldmappings GroupedBy) h
          else GroupedBy
        result ++ (", " ++ GroupedBy)
      else result
    let result := result ++ (", avg(" ++ Field ++ ")|group having avg(" ++ Field ++ ")")
    (result, none)
  | .Sum Field GroupedBy =>
    let Field :=
      if h : (mapIndex rule.fieldmappings Field).length ≠ 0 then
        index0 (mapIndex rule.fieldmappings Field) h
      else Field
    let result := "select " ++ Field
    let result :=
      if GroupedBy ≠ "" then
        let GroupedBy :=
          if h : (mapIndex rule.fieldmappings GroupedBy).length ≠ 0 then
            index0 (mapIndex rule.fieldmappings GroupedBy) h
          else GroupedBy
        result ++ (", " ++ GroupedBy)
      else result
    let result := result ++ (", sum(" ++ Field ++ ")|group having sum(" ++ Field ++ ")")
    (result, none)
  | .Min Field GroupedBy =>
    let Field :=
      if h : (mapIndex rule.fieldmappings Field).length ≠ 0 then
        index0 (mapIndex rule.fieldmappings Field) h
      else Field
    let result := "select " ++ Field
    let result :=
      if GroupedBy ≠ "" then
        let GroupedBy :=
          if h : (mapIndex rule.fieldmappings GroupedBy).length ≠ 0 then
            index0 (mapIndex rule.fieldmappings GroupedBy) h
          else GroupedBy
        result ++ (", " ++ GroupedBy)
      else result
    let result := result ++ (", min(" ++ Field ++ ")|group having min(" ++ Field ++ ")")
    (result, none)
  | .Max Field GroupedBy =>
    let Field :=
      if h : (mapIndex rule.fieldmappings Field).length ≠ 0 then
        index0 (mapIndex rule.fieldmappings Field) h
      else Field
    let result := "select " ++ Field
    let result :=
      if GroupedBy ≠ "" then
        let GroupedBy :=
          if h : (mapIndex rule.fieldmappings GroupedBy).length ≠ 0 then
            index0 (mapIndex rule.fieldmappings GroupedBy) h
          else GroupedBy
        result ++ (", " ++ GroupedBy)
      else result
    let result := result ++ (", max(" ++ Field ++ ")|group having max(" ++ Field ++ ")")
    (result, none)
  | .other _ => (result, some errUnsupportedFunc)

/-- Translator, `evaluateAggregationExpression` (lines 11-33). -/
def evaluateAggregationExpression (rule : RuleEvaluator) (ctx : Context) (conditionIndex : Int)
    (aggregation : AggregationExpr) : String × Option GoError :=
  let aggregationResult : String := ""
  match aggregation with
  | .Near _ => (aggregationResult, some errNear)
  | .Comparison Func Op Threshold =>
    match evaluateAggregationFunc rule ctx conditionIndex Func with
    | (aggregationResult, some err) => (aggregationResult, some err)
    | (aggregationResult, none) =>
      (aggregationResult ++ " " ++ Op ++ " " ++ sprintfD (goInt Threshold), none)
  | .other _ => (aggregationResult, some errUnknownExpression)

/-! ## Vocabulary of the specification -/

/-- The field resolution rule of the specification: the first entry of the sequence mapped to
the name when that sequence is non-empty, the name itself otherwise. -/
def resolve (rule : RuleEvaluator) (x : String) : String :=
  match rule.fieldmappings x with
  | some (a :: _) => a
  | _ => x

/-- A rule evaluator with an empty field-mapping table. -/
def noMappings : RuleEvaluator := ⟨fun _ => none⟩

/-- A context value for the scenarios. -/
def background : Context := ⟨false, ""⟩

/-- The five function variants the renderer supports. -/
def AggregationFunc.supported : AggregationFunc → Bool
  | .other _ => false
  | _ => true

/-- The fragment the specification gives for Average, Sum, Min and Max, where `k` is the
function keyword (`avg`, `sum`, `min`, `max`). -/
def keywordFragment (rule : RuleEvaluator) (k f g : String) : String :=
  "select " ++ resolve rule f ++ (if g ≠ "" then ", " ++ resolve rule g else "")
    ++ ", " ++ k ++ "(" ++ resolve rule f ++ ")|group having " ++ k ++ "(" ++ resolve rule f ++ ")"

/-- The fragment the specification gives for Count with a field. -/
def countFragment (rule : RuleEvaluator) (f g : String) : String :=
  "select " ++ resolve rule f ++ (if g ≠ "" then ", " ++ resolve rule g else "")
    ++ ", count(*)|group having count(*)"

/-- The names a function value carries: its field and its groupedBy name. -/
def AggregationFunc.names : AggregationFunc → List String
  | .Count f g => [f, g]
  | .Average f g => [f, g]
  | .Sum f g => [f, g]
  | .Min f g => [f, g]
  | .Max f g => [f, g]
  | .other _ => []

/-- Two tables agree on a name when both map it to a non-empty sequence with the same first
entry, or both have no entry or an empty sequence for it. -/
def agreeOn (M M' : RuleEvaluator) (x : String) : Prop :=
  (∃ a r r', M.fieldmappings x = some (a :: r) ∧ M'.fieldmappings x = some (a :: r')) ∨
  ((M.fieldmappings x = none ∨ M.fieldmappings x = some []) ∧
    (M'.fieldmappings x = none ∨ M'.fieldmappings x = some []))

/-- The table `{"user": ["usr_id"]}`. -/
def userMappings : RuleEvaluator :=
  ⟨fun k => if k = "user" then some ["usr_id"] else none⟩

/-- The table `{"host": ["hostname"]}`. -/
def hostMappings : RuleEvaluator :=
  ⟨fun k => if k = "host" then some ["hostname"] else none⟩

/-- The table `{"host": ["a", "b"]}`. -/
def twoNameMappings : RuleEvaluator :=
  ⟨fun k => if k = "host" then some ["a", "b"] else none⟩

/-- The table `{"a": ["b"], "b": ["c"]}`, in which a resolved name is itself mapped. -/
def chainMappings : RuleEvaluator :=
  ⟨fun k => if k = "a" then some ["b"] else if k = "b" then some ["c"] else none⟩

/-- The table `{"": ["x"]}`, which has a non-empty sequence for the empty name. -/
def emptyNameMappings : RuleEvaluator :=
  ⟨fun k => if k = "" then some ["x"] else none⟩

/-- The table `{"host": [""], "user": [""], "": ["x"]}`: two names mapped to the empty
string, and a non-empty sequence for the empty name. -/
def blankingMappings : RuleEvaluator :=
  ⟨fun k => if k = "host" then some [""] else if k = "user" then some [""]
    else if k = "" then some ["x"] else none⟩

/-- The table does not map the name `y` away from itself: it has no entry or an empty
sequence for `y`, or the sequence for `y` starts with `y`. -/
def notRemapped (M : RuleEvaluator) (y : String) : Prop :=
  M.fieldmappings y = none ∨ M.fieldmappings y = some [] ∨
    ∃ r, M.fieldmappings y = some (y :: r)

/-- Truncation of a rational toward zero: the fractional part is discarded, so a
non-negative number goes down to its floor and a negative number up to its ceiling. -/
def truncate (t : ℚ) : Int := if 0 ≤ t then ⌊t⌋ else ⌈t⌉

/-- The range of the machine `int` of Go on a 64-bit platform. -/
def inIntRange (z : Int) : Prop := -(2 : Int) ^ 63 ≤ z ∧ z < (2 : Int) ^ 63

/-- The value of a decimal digit character. -/
def digitValue (c : Char) : Nat := c.toNat - '0'.toNat

/-- The number a sequence of decimal digit characters denotes, most significant digit
first. -/
def decimalValue (cs : List Char) : Nat :=
  cs.foldl (fun acc c => 10 * acc + digitValue c) 0

/-- The decimal representation of an integer: a minus sign when the number is negative, then
the base-10 digits of its magnitude, most significant first, and the single digit `0` for
zero. -/
def decimal (z : Int) : String :=
  (if z < 0 then "-" else "") ++
    String.mk (if z.natAbs = 0 then ['0']
      else (Nat.digits 10 z.natAbs).reverse.map Nat.digitChar)

/-- The number of occurrences of the word `w` in the text `T`, overlapping ones included:
the number of positions of `T` at which `w` starts. -/
def occurrences (w T : List Char) : Nat :=
  List.countP (fun t => w.isPrefixOf t) T.tails

/-- The number of occurrences of the string `w` as a substring of the string `T`. -/
def occurrencesIn (w T : String) : Nat := occurrences w.data T.data

/-! ## Lemmas on the primitives -/

/-- The guarded lookup written out in every branch of the renderer computes `resolve`. -/
theorem guarded_lookup_eq_resolve (rule : RuleEvaluator) (x : String) :
    (if h : (mapIndex rule.fieldmappings x).length ≠ 0 then
        index0 (mapIndex rule.fieldmappings x) h
      else x) = resolve rule x := by
  unfold resolve mapIndex
  cases hx : rule.fieldmappings x with
  | none => simp
  | some v =>
    cases v with
    | nil => simp
    | cons a r => simp [index0]

theorem string_append_empty (s : String) : s ++ "" = s := by
  apply String.ext; simp

/-! ## Lemmas on the integer conversion and the printed text -/

theorem inIntRange_iff (z : Int) :
    inIntRange z ↔ (-9223372036854775808 ≤ z ∧ z < 9223372036854775808) := by
  unfold inIntRange
  norm_num

/-- Truncated division of the numerator by the denominator is truncation toward zero. -/
theorem tdiv_num_den_eq_truncate (t : ℚ) : Int.tdiv t.num (t.den : Int) = truncate t := by
  unfold truncate
  by_cases h : 0 ≤ t
  · rw [if_pos h, Rat.floor_def]
    exact Int.tdiv_eq_ediv (Rat.num_nonneg.mpr h) (Int.ofNat_nonneg _)
  · rw [if_neg h]
    have hneg : 0 ≤ -t := by linarith [not_le.mp h]
    have hc : ⌈t⌉ = -⌊-t⌋ := by rw [← Int.ceil_neg, neg_neg]
    rw [hc, Rat.floor_def, Rat.neg_num, Rat.neg_den]
    have h1 : (0 : Int) ≤ -t.num := by
      have := Rat.num_nonneg.mpr hneg
      simpa using this
    rw [← Int.tdiv_eq_ediv h1 (Int.ofNat_nonneg _), Int.neg_tdiv, neg_neg]

/-- Inside the machine integer range the conversion `int(x)` is truncation toward zero. -/
theorem goInt_eq_truncate (t : ℚ) (h : inIntRange (truncate t)) : goInt t = truncate t := by
  unfold goInt
  simp only [tdiv_num_den_eq_truncate]
  rw [if_pos ((inIntRange_iff _).mp h)]

/-- Outside the machine integer range the conversion `int(x)` gives the smallest `int`. -/
theorem goInt_out_of_range (t : ℚ) (h : ¬ inIntRange (truncate t)) :
    goInt t = -9223372036854775808 := by
  unfold goInt
  simp only [tdiv_num_den_eq_truncate]
  rw [if_neg (fun hc => h ((inIntRange_iff _).mpr hc))]

theorem truncate_intCast (n : Int) : truncate (n : ℚ) = n := by
  unfold truncate
  by_cases h : (0 : ℚ) ≤ (n : ℚ)
  · rw [if_pos h, Int.floor_intCast]
  · rw [if_neg h, Int.ceil_intCast]

/-- At the exactly representable thresholds 10^19 and 2^63, which are beyond the largest
`int`, the conversion gives the smallest `int`. -/
theorem goInt_beyond_range :
    goInt 10000000000000000000 = -9223372036854775808 ∧
    goInt 9223372036854775808 = -9223372036854775808 := by
  refine ⟨by decide, by decide⟩

/-- A machine integer stored in the threshold is converted back to itself. -/
theorem goInt_intCast (n : Int) (h : inIntRange n) : goInt (n : ℚ) = n := by
  rw [goInt_eq_truncate _ (by rw [truncate_intCast]; exact h), truncate_intCast]

/-- The ten digit characters: each is a decimal digit, has the value it stands for, and only
the digit zero is written `0`. -/
theorem digitChar_facts : ∀ d < 10, (Nat.digitChar d).isDigit = true ∧
    digitValue (Nat.digitChar d) = d ∧ (d ≠ 0 → Nat.digitChar d ≠ '0') := by
  decide

/-- With enough fuel the digit loop of the printer writes the base-10 digits of a positive
number, most significant first, in front of the accumulator. -/
theorem toDigitsCore_eq (fuel : Nat) : ∀ (n : Nat) (ds : List Char), 0 < n → n < fuel →
    Nat.toDigitsCore 10 fuel n ds = (Nat.digits 10 n).reverse.map Nat.digitChar ++ ds := by
  induction fuel with
  | zero => intro n ds _ h; omega
  | succ fuel ih =>
    intro n ds hn hf
    rw [Nat.digits_def' (by decide) hn]
    simp only [Nat.toDigitsCore]
    by_cases h0 : n / 10 = 0
    · simp [h0]
    · rw [if_neg h0, ih (n / 10) _ (Nat.pos_of_ne_zero h0) (by omega)]
      simp

theorem toDigits_pos (n : Nat) (hn : 0 < n) :
    Nat.toDigits 10 n = (Nat.digits 10 n).reverse.map Nat.digitChar := by
  unfold Nat.toDigits
  rw [toDigitsCore_eq (n + 1) n [] hn (Nat.lt_succ_self n), List.append_nil]

theorem decimalValue_snoc (cs : List Char) (c : Char) :
    decimalValue (cs ++ [c]) = 10 * decimalValue cs + digitValue c := by
  simp [decimalValue, List.foldl_append]

theorem decimalValue_digits (L : List Nat) (hL : ∀ d ∈ L, d < 10) :
    decimalValue (L.reverse.map Nat.digitChar) = Nat.ofDigits 10 L := by
  induction L with
  | nil => simp [decimalValue]
  | cons d L ih =>
    have hd : d < 10 := hL d (List.mem_cons_self d L)
    have hrest : ∀ x ∈ L, x < 10 := fun x hx => hL x (List.mem_cons_of_mem d hx)
    rw [List.reverse_cons, List.map_append, List.map_singleton, decimalValue_snoc, ih hrest,
      (digitChar_facts d hd).2.1, Nat.ofDigits_cons]
    ring

/-- The text printed for a natural number is its decimal representation: it is not empty,
consists of decimal digits only, denotes the number, and starts with `0` only when it is
the single digit `0`. -/
theorem toDigits_decimal (n : Nat) :
    Nat.toDigits 10 n ≠ [] ∧
    (∀ c ∈ Nat.toDigits 10 n, c.isDigit = true) ∧
    decimalValue (Nat.toDigits 10 n) = n ∧
    ((Nat.toDigits 10 n).head? = some '0' → Nat.toDigits 10 n = ['0']) := by
  rcases Nat.eq_zero_or_pos n with h0 | hpos
  · subst h0
    refine ⟨by decide, by decide, by decide, fun _ => by decide⟩
  · have hlt : ∀ d ∈ Nat.digits 10 n, d < 10 := fun d hd => Nat.digits_lt_base (by decide) hd
    have hne : Nat.digits 10 n ≠ [] := Nat.digits_ne_nil_iff_ne_zero.mpr hpos.ne'
    rw [toDigits_pos n hpos]
    refine ⟨by simpa using hne, ?_, ?_, ?_⟩
    · intro c hc
      rw [List.mem_map] at hc
      obtain ⟨d, hd, rfl⟩ := hc
      exact (digitChar_facts d (hlt d (List.mem_reverse.mp hd))).1
    · rw [decimalValue_digits _ hlt, Nat.ofDigits_digits]
    · intro hhead
      exfalso
      rw [List.head?_map, List.head?_reverse, List.getLast?_eq_getLast _ hne] at hhead
      simp only [Option.map_some', Option.some.injEq] at hhead
      have hlast := Nat.getLast_digit_ne_zero 10 hpos.ne'
      exact (digitChar_facts _ (hlt _ (List.getLast_mem hne))).2.2 hlast hhead

/-- The printed text of an integer is an optional minus sign followed by the digits of its
magnitude. -/
theorem sprintfD_eq (z : Int) :
    sprintfD z = (if z < 0 then "-" else "") ++ String.mk (Nat.toDigits 10 z.natAbs) := by
  unfold sprintfD
  by_cases h : z < 0
  · simp [h]
  · rw [if_neg h, if_neg h]
    apply String.ext
    simp

/-- The printed text of an integer is its decimal representation. -/
theorem sprintfD_eq_decimal (z : Int) : sprintfD z = decimal z := by
  rw [sprintfD_eq]
  unfold decimal
  by_cases h0 : z.natAbs = 0
  · rw [if_pos h0, h0]; rfl
  · rw [if_neg h0, toDigits_pos _ (Nat.pos_of_ne_zero h0)]

theorem truncate_neg_fifty_nine_tenths : truncate (-59 / 10) = -5 := by
  unfold truncate
  rw [if_neg (by norm_num), Int.ceil_eq_iff]
  norm_num

theorem truncate_fifty_nine_tenths : truncate (59 / 10) = 5 := by
  unfold truncate
  rw [if_pos (by norm_num), Int.floor_eq_iff]
  norm_num

theorem truncate_hundred : truncate 100 = 100 := by
  unfold truncate
  rw [if_pos (by norm_num), Int.floor_eq_iff]
  norm_num

/-! ## The renderer, branch by branch -/

theorem render_Count_no_field (rule : RuleEvaluator) (ctx : Context) (i : Int) (g : String) :
    evaluateAggregationFunc rule ctx i (.Count "" g)
      = ((if g ≠ "" then "select " ++ g else "") ++ ", count(*)|group having count(*)", none) := by
  simp [evaluateAggregationFunc]

theorem render_Count_field (rule : RuleEvaluator) (ctx : Context) (i : Int) (f g : String)
    (hf : f ≠ "") :
    evaluateAggregationFunc rule ctx i (.Count f g) = (countFragment rule f g, none) := by
  simp only [evaluateAggregationFunc, guarded_lookup_eq_resolve, countFragment]
  by_cases hg : g = "" <;> simp [hf, hg, String.append_assoc, string_append_empty]

theorem render_Average (rule : RuleEvaluator) (ctx : Context) (i : Int) (f g : String) :
    evaluateAggregationFunc rule ctx i (.Average f g) = (keywordFragment rule "avg" f g, none) := by
  simp only [evaluateAggregationFunc, guarded_lookup_eq_resolve, keywordFragment]
  by_cases hg : g = "" <;> simp [hg, String.append_assoc, string_append_empty]

theorem render_Sum (rule : RuleEvaluator) (ctx : Context) (i : Int) (f g : String) :
    evaluateAggregationFunc rule ctx i (.Sum f g) = (keywordFragment rule "sum" f g, none) := by
  simp only [evaluateAggregationFunc, guarded_lookup_eq_resolve, keywordFragment]
  by_cases hg : g = "" <;> simp [hg, String.append_assoc, string_append_empty]

theorem render_Min (rule : RuleEvaluator) (ctx : Context) (i : Int) (f g : String) :
    evaluateAggregationFunc rule ctx i (.Min f g) = (keywordFragment rule "min" f g, none) := by
  simp only [evaluateAggregationFunc, guarded_lookup_eq_resolve, keywordFragment]
  by_cases hg : g = "" <;> simp [hg, String.append_assoc, string_append_empty]

theorem render_Max (rule : RuleEvaluator) (ctx : Context) (i : Int) (f g : String) :
    evaluateAggregationFunc rule ctx i (.Max f g) = (keywordFragment rule "max" f g, none) := by
  simp only [evaluateAggregationFunc, guarded_lookup_eq_resolve, keywordFragment]
  by_cases hg : g = "" <;> simp [hg, String.append_assoc, string_append_empty]

theorem render_other (rule : RuleEvaluator) (ctx : Context) (i : Int) (n : String) :
    evaluateAggregationFunc rule ctx i (.other n) = ("", some errUnsupportedFunc) := by
  simp [evaluateAggregationFunc]

/-- On each of the five supported variants the renderer returns the nil error. -/
theorem render_supported (rule : RuleEvaluator) (ctx : Context) (i : Int)
    (fn : AggregationFunc) (h : fn.supported = true) :
    (evaluateAggregationFunc rule ctx i fn).2 = none := by
  cases fn with
  | Count f g =>
    by_cases hf : f = ""
    · subst hf; rw [render_Count_no_field]
    · rw [render_Count_field rule ctx i f g hf]
  | Average f g => rw [render_Average]
  | Sum f g => rw [render_Sum]
  | Min f g => rw [render_Min]
  | Max f g => rw [render_Max]
  | other n => simp [AggregationFunc.supported] at h

theorem render_unsupported (rule : RuleEvaluator) (ctx : Context) (i : Int)
    (fn : AggregationFunc) (h : fn.supported = false) :
    evaluateAggregationFunc rule ctx i fn = ("", some errUnsupportedFunc) := by
  cases fn with
  | other n => exact render_other rule ctx i n
  | _ => simp [AggregationFunc.supported] at h

/-! ## The translator, case by case -/

theorem translate_Comparison_ok (rule : RuleEvaluator) (ctx : Context) (i : Int)
    (fn : AggregationFunc) (op : String) (t : Threshold) (s : String)
    (h : evaluateAggregationFunc rule ctx i fn = (s, none)) :
    evaluateAggregationExpression rule ctx i (.Comparison fn op t)
      = (s ++ " " ++ op ++ " " ++ sprintfD (goInt t), none) := by
  simp [evaluateAggregationExpression, h]

theorem translate_Comparison_err (rule : RuleEvaluator) (ctx : Context) (i : Int)
    (fn : AggregationFunc) (op : String) (t : Threshold) (s : String) (err : GoError)
    (h : evaluateAggregationFunc rule ctx i fn = (s, some err)) :
    evaluateAggregationExpression rule ctx i (.Comparison fn op t) = (s, some err) := by
  simp [evaluateAggregationExpression, h]

theorem translate_Near (rule : RuleEvaluator) (ctx : Context) (i : Int) (body : String) :
    evaluateAggregationExpression rule ctx i (.Near body) = ("", some errNear) := by
  simp [evaluateAggregationExpression]

theorem translate_other (rule : RuleEvaluator) (ctx : Context) (i : Int) (n : String) :
    evaluateAggregationExpression rule ctx i (.other n) = ("", some errUnknownExpression) := by
  simp [evaluateAggregationExpression]

/-- Agreement of two tables on a name gives the same resolved name. -/
theorem resolve_congr (M M' : RuleEvaluator) (x : String) (h : agreeOn M M' x) :
    resolve M x = resolve M' x := by
  unfold resolve
  rcases h with ⟨a, r, r', h1, h2⟩ | ⟨h1 | h1, h2 | h2⟩ <;> simp [h1, h2]

/-- The renderer reads the table only through the first entries mapped to the two names of
the function value. -/
theorem render_table_congr (M M' : RuleEvaluator) (ctx : Context) (i : Int)
    (fn : AggregationFunc) (h : ∀ x ∈ fn.names, agreeOn M M' x) :
    evaluateAggregationFunc M ctx i fn = evaluateAggregationFunc M' ctx i fn := by
  cases fn with
  | Count f g =>
    have hf := resolve_congr M M' f (h f (by simp [AggregationFunc.names]))
    have hg := resolve_congr M M' g (h g (by simp [AggregationFunc.names]))
    by_cases hf0 : f = ""
    · subst hf0; rw [render_Count_no_field, render_Count_no_field]
    · rw [render_Count_field M ctx i f g hf0, render_Count_field M' ctx i f g hf0]
      simp [countFragment, hf, hg]
  | Average f g =>
    have hf := resolve_congr M M' f (h f (by simp [AggregationFunc.names]))
    have hg := resolve_congr M M' g (h g (by simp [AggregationFunc.names]))
    rw [render_Average, render_Average]; simp [keywordFragment, hf, hg]
  | Sum f g =>
    have hf := resolve_congr M M' f (h f (by simp [AggregationFunc.names]))
    have hg := resolve_congr M M' g (h g (by simp [AggregationFunc.names]))
    rw [render_Sum, render_Sum]; simp [keywordFragment, hf, hg]
  | Min f g =>
    have hf := resolve_congr M M' f (h f (by simp [AggregationFunc.names]))
    have hg := resolve_congr M M' g (h g (by simp [AggregationFunc.names]))
    rw [render_Min, render_Min]; simp [keywordFragment, hf, hg]
  | Max f g =>
    have hf := resolve_congr M M' f (h f (by simp [AggregationFunc.names]))
    have hg := resolve_congr M M' g (h g (by simp [AggregationFunc.names]))
    rw [render_Max, render_Max]; simp [keywordFragment, hf, hg]
  | other n => rw [render_other, render_other]

/-! ## The claims -/

/-- Claim C1: whenever the renderer succeeds on `fn` with fragment `s`, the translator on
`Comparison{fn, op, t}` returns the nil error and exactly `s`, a space, the operator text
verbatim, a space, and the decimal representation of the threshold converted to the machine
integer: for every threshold that is the conversion `int(t)`; for a threshold whose
truncation lies in the machine integer range it is the truncated threshold, and for a
machine integer `n` stored in the threshold it is `n` itself. -/
theorem translate_appends_operator_and_threshold (rule : RuleEvaluator) (ctx : Context)
    (i : Int) (fn : AggregationFunc) (op s : String)
    (h : evaluateAggregationFunc rule ctx i fn = (s, none)) :
    (∀ t : Threshold, evaluateAggregationExpression rule ctx i (.Comparison fn op t)
        = (s ++ " " ++ op ++ " " ++ decimal (goInt t), none)) ∧
    (∀ t : Threshold, inIntRange (truncate t) →
      evaluateAggregationExpression rule ctx i (.Comparison fn op t)
        = (s ++ " " ++ op ++ " " ++ decimal (truncate t), none)) ∧
    (∀ n : Int, inIntRange n →
      evaluateAggregationExpression rule ctx i (.Comparison fn op (n : ℚ))
        = (s ++ " " ++ op ++ " " ++ decimal n, none)) := by
  refine ⟨fun t => ?_, fun t ht => ?_, fun n hn => ?_⟩
  · rw [translate_Comparison_ok rule ctx i fn op t s h, sprintfD_eq_decimal]
  · rw [translate_Comparison_ok rule ctx i fn op t s h, sprintfD_eq_decimal,
      goInt_eq_truncate t ht]
  · rw [translate_Comparison_ok rule ctx i fn op (n : ℚ) s h, sprintfD_eq_decimal,
      goInt_intCast n hn]

/-- Scenario 3 of the specification, obtained from claim C1: Average of `duration` grouped by
`host`, no mappings, operator `<`, threshold 100. -/
theorem translate_appends_operator_and_threshold_witness :
    evaluateAggregationFunc noMappings background 0 (.Average "duration" "host")
        = ("select duration, host, avg(duration)|group having avg(duration)", none) ∧
    inIntRange (truncate 100) ∧
    evaluateAggregationExpression noMappings background 0
        (.Comparison (.Average "duration" "host") "<" 100)
        = ("select duration, host, avg(duration)|group having avg(duration) < 100", none) :=
  ⟨by decide,
   by rw [truncate_hundred]; unfold inIntRange; norm_num,
   ((translate_appends_operator_and_threshold noMappings background 0
      (.Average "duration" "host") "<"
      "select duration, host, avg(duration)|group having avg(duration)" (by decide)).2.1
      100 (by rw [truncate_hundred]; unfold inIntRange; norm_num)).trans
      (by rw [truncate_hundred, ← sprintfD_eq_decimal]; decide)⟩

/-- Claim C2: for Average, Sum, Min and Max, with keyword `avg`, `sum`, `min`, `max`, for every
field (the empty one included), every groupedBy and every table, the renderer returns the nil
error and `select R(f)`, then `, R(g)` when `g` is non-empty, then
`, k(R(f))|group having k(R(f))`: the same resolved field name in all three places. -/
theorem render_keyword_variants (rule : RuleEvaluator) (ctx : Context) (i : Int)
    (f g : String) :
    evaluateAggregationFunc rule ctx i (.Average f g) = (keywordFragment rule "avg" f g, none) ∧
    evaluateAggregationFunc rule ctx i (.Sum f g) = (keywordFragment rule "sum" f g, none) ∧
    evaluateAggregationFunc rule ctx i (.Min f g) = (keywordFragment rule "min" f g, none) ∧
    evaluateAggregationFunc rule ctx i (.Max f g) = (keywordFragment rule "max" f g, none) :=
  ⟨render_Average rule ctx i f g, render_Sum rule ctx i f g, render_Min rule ctx i f g,
    render_Max rule ctx i f g⟩

/-- Claim C3: for Count with a non-empty field, every groupedBy and every table, the renderer
returns the nil error and `select R(f)`, then `, R(g)` when `g` is non-empty, then
`, count(*)|group having count(*)`; the translator appends the operator and the threshold to
that fragment. -/
theorem render_count_with_field (rule : RuleEvaluator) (ctx : Context) (i : Int)
    (f g : String) (hf : f ≠ "") :
    evaluateAggregationFunc rule ctx i (.Count f g)
      = ("select " ++ resolve rule f ++ (if g ≠ "" then ", " ++ resolve rule g else "")
          ++ ", count(*)|group having count(*)", none) ∧
    ∀ (op : String) (t : Threshold),
      evaluateAggregationExpression rule ctx i (.Comparison (.Count f g) op t)
        = ("select " ++ resolve rule f ++ (if g ≠ "" then ", " ++ resolve rule g else "")
            ++ ", count(*)|group having count(*)" ++ " " ++ op ++ " "
            ++ sprintfD (goInt t), none) := by
  have h := render_Count_field rule ctx i f g hf
  exact ⟨h, fun op t => translate_Comparison_ok rule ctx i _ op t _ h⟩

/-- Scenario 2 of the specification, obtained from claim C3: Count of `user`, no groupedBy,
table `{"user": ["usr_id"]}`, operator `>=`, threshold 3. -/
theorem render_count_with_field_witness :
    "user" ≠ "" ∧
    evaluateAggregationExpression userMappings background 0
        (.Comparison (.Count "user" "") ">=" 3)
        = ("select usr_id, count(*)|group having count(*) >= 3", none) :=
  ⟨by decide,
   ((render_count_with_field userMappings background 0 "user" "" (by decide)).2 ">=" 3).trans
     (by decide)⟩

/-- Claim C4, evaluated on the code: for Count with an empty field, groupedBy `host` and the
table `{"host": ["hostname"]}`, the renderer returns `select host, ...` with the raw name,
although the resolution rule gives `hostname`; the branch of Count with a field resolves
the same groupedBy. -/
theorem count_no_field_keeps_raw_groupedBy :
    resolve hostMappings "host" = "hostname" ∧
    evaluateAggregationFunc hostMappings background 0 (.Count "" "host")
      = ("select host, count(*)|group having count(*)", none) ∧
    evaluateAggregationFunc hostMappings background 0 (.Count "" "host")
      ≠ ("select " ++ resolve hostMappings "host" ++ ", count(*)|group having count(*)", none) ∧
    evaluateAggregationFunc hostMappings background 0 (.Count "user" "host")
      = ("select user, hostname, count(*)|group having count(*)", none) := by
  refine ⟨by decide, by decide, by decide, by decide⟩

/-- Claim C5: for Count with empty field and empty groupedBy, for every table and condition
index, the renderer returns `, count(*)|group having count(*)` with no select clause, and the
translator with operator `op` and a machine integer threshold `n` returns that fragment
followed by a space, `op`, a space and the decimal representation of `n`; with `>` and 5
this is `, count(*)|group having count(*) > 5`. -/
theorem count_without_names (rule : RuleEvaluator) (ctx : Context) (i : Int) :
    evaluateAggregationFunc rule ctx i (.Count "" "")
      = (", count(*)|group having count(*)", none) ∧
    (∀ (op : String) (n : Int), inIntRange n →
      evaluateAggregationExpression rule ctx i (.Comparison (.Count "" "") op (n : ℚ))
        = (", count(*)|group having count(*) " ++ op ++ " " ++ decimal n, none)) ∧
    evaluateAggregationExpression rule ctx i (.Comparison (.Count "" "") ">" 5)
      = (", count(*)|group having count(*) > 5", none) := by
  have h : evaluateAggregationFunc rule ctx i (.Count "" "")
      = (", count(*)|group having count(*)", none) := by
    rw [render_Count_no_field]; simp
  refine ⟨h, fun op n hn => ?_, ?_⟩
  · rw [translate_Comparison_ok rule ctx i _ op (n : ℚ) _ h, goInt_intCast n hn,
      sprintfD_eq_decimal]
    refine Prod.ext (String.ext ?_) rfl
    simp [String.data_append]
  · rw [translate_Comparison_ok rule ctx i _ ">" 5 _ h]
    decide

/-- Claim C5 at the table `{"": ["x"]}`, which has an entry for the empty name, with the
operator `>` and the machine integer 5. -/
theorem count_without_names_witness :
    inIntRange 5 ∧
    evaluateAggregationFunc emptyNameMappings background 0 (.Count "" "")
      = (", count(*)|group having count(*)", none) ∧
    evaluateAggregationExpression emptyNameMappings background 0
        (.Comparison (.Count "" "") ">" ((5 : Int) : ℚ))
      = (", count(*)|group having count(*) > 5", none) :=
  ⟨by unfold inIntRange; norm_num,
   (count_without_names emptyNameMappings background 0).1,
   ((count_without_names emptyNameMappings background 0).2.1 ">" 5
      (by unfold inIntRange; norm_num)).trans
      (by rw [← sprintfD_eq_decimal]; decide)⟩

/-- Claim C6: on a Near expression the translator fails for every condition index and every
table: the string is empty and the error is the one with message
`near isn't supported yet`, never the nil error. -/
theorem near_is_rejected (rule : RuleEvaluator) (ctx : Context) (i : Int) (body : String) :
    evaluateAggregationExpression rule ctx i (.Near body) = ("", some errNear) ∧
    errNear.msg = "near isn't supported yet" ∧
    (evaluateAggregationExpression rule ctx i (.Near body)).1 = "" ∧
    (evaluateAggregationExpression rule ctx i (.Near body)).2 ≠ none := by
  rw [translate_Near]
  exact ⟨rfl, rfl, rfl, by simp⟩

/-- Claim C7: for a function value that is none of Count, Average, Sum, Min, Max the renderer
returns the empty string with the unsupported-function error, and the translator on a
comparison wrapping it returns the same pair for every operator and threshold: nothing is
appended. -/
theorem unsupported_function_is_rejected (rule : RuleEvaluator) (ctx : Context) (i : Int)
    (fn : AggregationFunc) (h : fn.supported = false) :
    evaluateAggregationFunc rule ctx i fn = ("", some errUnsupportedFunc) ∧
    ∀ (op : String) (t : Threshold),
      evaluateAggregationExpression rule ctx i (.Comparison fn op t)
        = ("", some errUnsupportedFunc) := by
  have hr := render_unsupported rule ctx i fn h
  exact ⟨hr, fun op t => translate_Comparison_err rule ctx i fn op t _ _ hr⟩

/-- Scenario 4 of the specification, obtained from claim C7 at a function type outside the
five variants. -/
theorem unsupported_function_is_rejected_witness :
    (AggregationFunc.other "sigma.Median").supported = false ∧
    evaluateAggregationFunc userMappings background 7 (.other "sigma.Median")
      = ("", some errUnsupportedFunc) ∧
    evaluateAggregationExpression userMappings background 7
      (.Comparison (.other "sigma.Median") ">" 5) = ("", some errUnsupportedFunc) :=
  ⟨rfl,
   (unsupported_function_is_rejected userMappings background 7 (.other "sigma.Median") rfl).1,
   (unsupported_function_is_rejected userMappings background 7 (.other "sigma.Median") rfl).2
     ">" 5⟩

/-- Claim C8: the translator returns the nil error exactly when the expression is a
Comparison whose function is one of Count, Average, Sum, Min, Max, whatever the field,
groupedBy, table, operator, threshold and condition index; an expression that is neither
Near nor Comparison fails with the unknown-expression error, which differs from the Near
error and from the unsupported-function error. -/
theorem translate_succeeds_iff (rule : RuleEvaluator) (ctx : Context) (i : Int) :
    (∀ e : AggregationExpr,
      (evaluateAggregationExpression rule ctx i e).2 = none ↔
        ∃ fn op t, e = .Comparison fn op t ∧ fn.supported = true) ∧
    (∀ n : String,
      evaluateAggregationExpression rule ctx i (.other n) = ("", some errUnknownExpression)) ∧
    errUnknownExpression ≠ errNear ∧ errUnknownExpression ≠ errUnsupportedFunc := by
  refine ⟨fun e => ?_, translate_other rule ctx i, by decide, by decide⟩
  cases e with
  | Near body => simp [translate_Near]
  | other n => simp [translate_other]
  | Comparison fn op t =>
    cases hs : fn.supported with
    | true =>
      have hr := render_supported rule ctx i fn hs
      have ht := translate_Comparison_ok rule ctx i fn op t
        (evaluateAggregationFunc rule ctx i fn).1 (Prod.ext rfl hr)
      simp [ht, hs]
    | false =>
      have ht := translate_Comparison_err rule ctx i fn op t _ _
        (render_unsupported rule ctx i fn hs)
      simp [ht, hs]

/-- Claim C9: whenever the translator returns a non-nil error its string is empty, and
whenever the renderer returns a non-nil error its string is empty. -/
theorem error_comes_with_empty_string (rule : RuleEvaluator) (ctx : Context) (i : Int)
    (e : AggregationExpr) (fn : AggregationFunc)
    (he : (evaluateAggregationExpression rule ctx i e).2 ≠ none)
    (hfn : (evaluateAggregationFunc rule ctx i fn).2 ≠ none) :
    (evaluateAggregationExpression rule ctx i e).1 = "" ∧
    (evaluateAggregationFunc rule ctx i fn).1 = "" := by
  constructor
  · cases e with
    | Near body => rw [translate_Near]
    | other n => rw [translate_other]
    | Comparison f op t =>
      cases hs : f.supported with
      | true =>
        have hr := render_supported rule ctx i f hs
        have ht := translate_Comparison_ok rule ctx i f op t
          (evaluateAggregationFunc rule ctx i f).1 (Prod.ext rfl hr)
        rw [ht] at he
        exact absurd rfl he
      | false =>
        rw [translate_Comparison_err rule ctx i f op t _ _ (render_unsupported rule ctx i f hs)]
  · cases hs : fn.supported with
    | true => exact absurd (render_supported rule ctx i fn hs) hfn
    | false => rw [render_unsupported rule ctx i fn hs]

/-- Claim C9 at a comparison over an unsupported function and at that function. -/
theorem error_comes_with_empty_string_witness :
    (evaluateAggregationExpression userMappings background 2
        (.Comparison (.other "sigma.Median") "<" 4)).2 ≠ none ∧
    (evaluateAggregationFunc userMappings background 2 (.other "sigma.Median")).2 ≠ none ∧
    (evaluateAggregationExpression userMappings background 2
        (.Comparison (.other "sigma.Median") "<" 4)).1 = "" ∧
    (evaluateAggregationFunc userMappings background 2 (.other "sigma.Median")).1 = "" :=
  ⟨by decide, by decide,
   error_comes_with_empty_string userMappings background 2
     (.Comparison (.other "sigma.Median") "<" 4) (.other "sigma.Median")
     (by decide) (by decide)⟩

/-- Claim C10, evaluated on the code: for Count with an empty field, groupedBy `host` and the
table `{"host": ["a", "b"]}`, the name mapped to `["a", "b"]` appears in the output as
`host`, not as `a`; under Average the same name under the same table appears as `a`. -/
theorem mapped_groupedBy_appears_raw_in_count :
    twoNameMappings.fieldmappings "host" = some ["a", "b"] ∧
    evaluateAggregationFunc twoNameMappings background 0 (.Count "" "host")
      = ("select host, count(*)|group having count(*)", none) ∧
    evaluateAggregationFunc twoNameMappings background 0 (.Count "" "host")
      ≠ ("select a, count(*)|group having count(*)", none) ∧
    evaluateAggregationFunc twoNameMappings background 0 (.Average "" "host")
      = ("select , a, avg()|group having avg()", none) := by
  refine ⟨by decide, by decide, by decide, by decide⟩

/-- A name the table does not map away from itself resolves to itself. -/
theorem resolve_of_notRemapped (M : RuleEvaluator) (y : String) (h : notRemapped M y) :
    resolve M y = y := by
  unfold resolve
  rcases h with h | h | ⟨r, h⟩ <;> simp [h]

/-- Claim C11, as stated, fails on the code: under `{"a": ["b"], "b": ["c"]}` resolving `a`
twice gives `c`, not `b`, and Average renders differently for field `b` and for field `a`;
under `{"": ["x"]}` resolution is idempotent at the empty name, yet Count renders
differently for field `x` and for the empty field. -/
theorem resolve_twice_differs :
    resolve chainMappings "a" = "b" ∧
    resolve chainMappings (resolve chainMappings "a") = "c" ∧
    resolve chainMappings (resolve chainMappings "a") ≠ resolve chainMappings "a" ∧
    evaluateAggregationFunc chainMappings background 0
        (.Average (resolve chainMappings "a") "")
      ≠ evaluateAggregationFunc chainMappings background 0 (.Average "a" "") ∧
    resolve emptyNameMappings (resolve emptyNameMappings "")
      = resolve emptyNameMappings "" ∧
    evaluateAggregationFunc emptyNameMappings background 0
        (.Count (resolve emptyNameMappings "") "")
      ≠ evaluateAggregationFunc emptyNameMappings background 0 (.Count "" "") := by
  refine ⟨by decide, by decide, by decide, by decide, by decide, by decide⟩

/-- Claim C11, amended: when the table does not map the resolved name `R(f)` away from
itself, `R(R(f)) = R(f)`, and rendering with field `R(f)` gives the same result as rendering
with field `f` for Average, Sum, Min and Max, and for Count when `f` and `R(f)` are both
empty or both non-empty. -/
theorem resolve_idempotent_when_not_remapped (M : RuleEvaluator) (ctx : Context) (i : Int)
    (f g : String) (h : notRemapped M (resolve M f)) :
    resolve M (resolve M f) = resolve M f ∧
    evaluateAggregationFunc M ctx i (.Average (resolve M f) g)
      = evaluateAggregationFunc M ctx i (.Average f g) ∧
    evaluateAggregationFunc M ctx i (.Sum (resolve M f) g)
      = evaluateAggregationFunc M ctx i (.Sum f g) ∧
    evaluateAggregationFunc M ctx i (.Min (resolve M f) g)
      = evaluateAggregationFunc M ctx i (.Min f g) ∧
    evaluateAggregationFunc M ctx i (.Max (resolve M f) g)
      = evaluateAggregationFunc M ctx i (.Max f g) ∧
    ((f = "" ↔ resolve M f = "") →
      evaluateAggregationFunc M ctx i (.Count (resolve M f) g)
        = evaluateAggregationFunc M ctx i (.Count f g)) := by
  have hi := resolve_of_notRemapped M (resolve M f) h
  refine ⟨hi, ?_, ?_, ?_, ?_, ?_⟩
  · rw [render_Average, render_Average]; simp [keywordFragment, hi]
  · rw [render_Sum, render_Sum]; simp [keywordFragment, hi]
  · rw [render_Min, render_Min]; simp [keywordFragment, hi]
  · rw [render_Max, render_Max]; simp [keywordFragment, hi]
  · intro hiff
    by_cases hf : f = ""
    · have hr : resolve M f = "" := hiff.mp hf
      rw [hr, hf]
    · have hr : resolve M f ≠ "" := fun hr => hf (hiff.mpr hr)
      rw [render_Count_field M ctx i (resolve M f) g hr, render_Count_field M ctx i f g hf]
      simp [countFragment, hi]

/-- Claim C11, amended, at the table `{"user": ["usr_id"]}` and the field `user`: the resolved
name `usr_id` has no entry, and Count renders the same for `usr_id` and for `user`. -/
theorem resolve_idempotent_when_not_remapped_witness :
    notRemapped userMappings (resolve userMappings "user") ∧
    resolve userMappings (resolve userMappings "user") = resolve userMappings "user" ∧
    evaluateAggregationFunc userMappings background 0
        (.Count (resolve userMappings "user") "host")
      = evaluateAggregationFunc userMappings background 0 (.Count "user" "host") :=
  ⟨Or.inl (by decide),
   (resolve_idempotent_when_not_remapped userMappings background 0 "user" "host"
      (Or.inl (by decide))).1,
   (resolve_idempotent_when_not_remapped userMappings background 0 "user" "host"
      (Or.inl (by decide))).2.2.2.2.2 (by decide)⟩

/-- Claim C12: neither the condition index nor the context affects the result: for any two
indices and any two contexts the translator returns the same pair, and so does the renderer;
each result is a function of the table and the expression alone. -/
theorem index_and_context_are_ignored (rule : RuleEvaluator) :
    (∀ (e : AggregationExpr) (ctx ctx' : Context) (i j : Int),
      evaluateAggregationExpression rule ctx i e = evaluateAggregationExpression rule ctx' j e) ∧
    (∀ (fn : AggregationFunc) (ctx ctx' : Context) (i j : Int),
      evaluateAggregationFunc rule ctx i fn = evaluateAggregationFunc rule ctx' j fn) ∧
    (∃ F : RuleEvaluator → AggregationExpr → String × Option GoError,
      ∀ (r : RuleEvaluator) (e : AggregationExpr) (ctx : Context) (i : Int),
        evaluateAggregationExpression r ctx i e = F r e) ∧
    (∃ G : RuleEvaluator → AggregationFunc → String × Option GoError,
      ∀ (r : RuleEvaluator) (fn : AggregationFunc) (ctx : Context) (i : Int),
        evaluateAggregationFunc r ctx i fn = G r fn) :=
  ⟨fun _ _ _ _ _ => rfl, fun _ _ _ _ _ => rfl,
   ⟨fun r e => evaluateAggregationExpression r background 0 e, fun _ _ _ _ => rfl⟩,
   ⟨fun r fn => evaluateAggregationFunc r background 0 fn, fun _ _ _ _ => rfl⟩⟩

/-- Claim C14: for Average, Sum, Min, Max with any field and for Count with a non-empty
field, and for every non-empty groupedBy `g`, the fragment with groupedBy `g` is the fragment
with empty groupedBy with `, R(g)` inserted right after `select R(f)`: both are
`select R(f)` followed by the same aggregate part, which depends on the field only. -/
theorem groupedBy_is_inserted_after_field (rule : RuleEvaluator) (ctx : Context) (i : Int)
    (f g : String) (hg : g ≠ "") :
    (evaluateAggregationFunc rule ctx i (.Average f "")
        = ("select " ++ resolve rule f
            ++ (", avg(" ++ resolve rule f ++ ")|group having avg(" ++ resolve rule f ++ ")"),
           none) ∧
      evaluateAggregationFunc rule ctx i (.Average f g)
        = ("select " ++ resolve rule f ++ (", " ++ resolve rule g)
            ++ (", avg(" ++ resolve rule f ++ ")|group having avg(" ++ resolve rule f ++ ")"),
           none)) ∧
    (evaluateAggregationFunc rule ctx i (.Sum f "")
        = ("select " ++ resolve rule f
            ++ (", sum(" ++ resolve rule f ++ ")|group having sum(" ++ resolve rule f ++ ")"),
           none) ∧
      evaluateAggregationFunc rule ctx i (.Sum f g)
        = ("select " ++ resolve rule f ++ (", " ++ resolve rule g)
            ++ (", sum(" ++ resolve rule f ++ ")|group having sum(" ++ resolve rule f ++ ")"),
           none)) ∧
    (evaluateAggregationFunc rule ctx i (.Min f "")
        = ("select " ++ resolve rule f
            ++ (", min(" ++ resolve rule f ++ ")|group having min(" ++ resolve rule f ++ ")"),
           none) ∧
      evaluateAggregationFunc rule ctx i (.Min f g)
        = ("select " ++ resolve rule f ++ (", " ++ resolve rule g)
            ++ (", min(" ++ resolve rule f ++ ")|group having min(" ++ resolve rule f ++ ")"),
           none)) ∧
    (evaluateAggregationFunc rule ctx i (.Max f "")
        = ("select " ++ resolve rule f
            ++ (", max(" ++ resolve rule f ++ ")|group having max(" ++ resolve rule f ++ ")"),
           none) ∧
      evaluateAggregationFunc rule ctx i (.Max f g)
        = ("select " ++ resolve rule f ++ (", " ++ resolve rule g)
            ++ (", max(" ++ resolve rule f ++ ")|group having max(" ++ resolve rule f ++ ")"),
           none)) ∧
    (f ≠ "" →
      evaluateAggregationFunc rule ctx i (.Count f "")
        = ("select " ++ resolve rule f ++ ", count(*)|group having count(*)", none) ∧
      evaluateAggregationFunc rule ctx i (.Count f g)
        = ("select " ++ resolve rule f ++ (", " ++ resolve rule g)
            ++ ", count(*)|group having count(*)", none)) := by
  refine ⟨⟨?_, ?_⟩, ⟨?_, ?_⟩, ⟨?_, ?_⟩, ⟨?_, ?_⟩, fun hf => ⟨?_, ?_⟩⟩
  · rw [render_Average]; simp [keywordFragment, String.append_assoc]
  · rw [render_Average]; simp [keywordFragment, hg, String.append_assoc]
  · rw [render_Sum]; simp [keywordFragment, String.append_assoc]
  · rw [render_Sum]; simp [keywordFragment, hg, String.append_assoc]
  · rw [render_Min]; simp [keywordFragment, String.append_assoc]
  · rw [render_Min]; simp [keywordFragment, hg, String.append_assoc]
  · rw [render_Max]; simp [keywordFragment, String.append_assoc]
  · rw [render_Max]; simp [keywordFragment, hg, String.append_assoc]
  · rw [render_Count_field rule ctx i f "" hf]; simp [countFragment, String.append_assoc]
  · rw [render_Count_field rule ctx i f g hf]; simp [countFragment, hg, String.append_assoc]

/-- Claim C14 at `{"host": ["hostname"]}`: Count of `user` renders as
`select user, count(*)|...` without groupedBy and as `select user, hostname, count(*)|...`
with groupedBy `host`. -/
theorem groupedBy_is_inserted_after_field_witness :
    "host" ≠ "" ∧ "user" ≠ "" ∧
    evaluateAggregationFunc hostMappings background 0 (.Count "user" "")
      = ("select user, count(*)|group having count(*)", none) ∧
    evaluateAggregationFunc hostMappings background 0 (.Count "user" "host")
      = ("select user, hostname, count(*)|group having count(*)", none) :=
  ⟨by decide, by decide,
   ((groupedBy_is_inserted_after_field hostMappings background 0 "user" "host"
      (by decide)).2.2.2.2 (by decide)).1.trans (by decide),
   ((groupedBy_is_inserted_after_field hostMappings background 0 "user" "host"
      (by decide)).2.2.2.2 (by decide)).2.trans (by decide)⟩

/-- Claim C16, as stated, fails on the code: Count with an empty field reaches the groupedBy
test of line 43, and with groupedBy `host` mapped to the empty string it returns
`select host, count(*)|...`, which is not `select R(f), ` followed by the empty name and
the aggregate part, whether the field is taken resolved or raw. -/
theorem count_no_field_emits_no_separator :
    blankingMappings.fieldmappings "host" = some [""] ∧
    evaluateAggregationFunc blankingMappings background 0 (.Count "" "host")
      = ("select host, count(*)|group having count(*)", none) ∧
    evaluateAggregationFunc blankingMappings background 0 (.Count "" "host")
      ≠ ("select " ++ resolve blankingMappings "" ++ ", " ++ ""
          ++ ", count(*)|group having count(*)", none) ∧
    evaluateAggregationFunc blankingMappings background 0 (.Count "" "host")
      ≠ ("select " ++ "" ++ ", " ++ "" ++ ", count(*)|group having count(*)", none) := by
  refine ⟨by decide, by decide, by decide, by decide⟩

/-- Claim C16, amended: the emptiness tests are made on the raw names. (1) For Average, Sum,
Min, Max and for Count with a non-empty field, a non-empty groupedBy `g` whose sequence
starts with the empty string still emits the separator: `select R(f), ` followed by the empty
name and the aggregate part; for Count with an empty field such a `g` still produces a
select clause, `select ` followed by one name for `g` (the raw or the resolved one) and
directly by the aggregate part, with no field and no separator. (2) A Count whose non-empty
field `f2` maps to the empty string takes the field branch: `select ` followed by the empty
name, the groupedBy part and the aggregate part. (3) For every table, a Count with an empty
field returns the same result under every other table that differs from it only at the
empty name. -/
theorem emptiness_tests_use_raw_names (rule : RuleEvaluator) (ctx : Context) (i : Int) :
    (∀ (f g : String) (rg : List String), g ≠ "" →
      rule.fieldmappings g = some ("" :: rg) →
      evaluateAggregationFunc rule ctx i (.Average f g)
        = ("select " ++ resolve rule f ++ ", " ++ ""
            ++ (", avg(" ++ resolve rule f ++ ")|group having avg(" ++ resolve rule f ++ ")"),
           none) ∧
      evaluateAggregationFunc rule ctx i (.Sum f g)
        = ("select " ++ resolve rule f ++ ", " ++ ""
            ++ (", sum(" ++ resolve rule f ++ ")|group having sum(" ++ resolve rule f ++ ")"),
           none) ∧
      evaluateAggregationFunc rule ctx i (.Min f g)
        = ("select " ++ resolve rule f ++ ", " ++ ""
            ++ (", min(" ++ resolve rule f ++ ")|group having min(" ++ resolve rule f ++ ")"),
           none) ∧
      evaluateAggregationFunc rule ctx i (.Max f g)
        = ("select " ++ resolve rule f ++ ", " ++ ""
            ++ (", max(" ++ resolve rule f ++ ")|group having max(" ++ resolve rule f ++ ")"),
           none) ∧
      (f ≠ "" →
        evaluateAggregationFunc rule ctx i (.Count f g)
          = ("select " ++ resolve rule f ++ ", " ++ "" ++ ", count(*)|group having count(*)",
             none)) ∧
      (∃ name : String, (name = g ∨ name = resolve rule g) ∧
        evaluateAggregationFunc rule ctx i (.Count "" g)
          = ("select " ++ name ++ ", count(*)|group having count(*)", none))) ∧
    (∀ (f2 g2 : String) (rf : List String), f2 ≠ "" →
      rule.fieldmappings f2 = some ("" :: rf) →
      evaluateAggregationFunc rule ctx i (.Count f2 g2)
        = ("select " ++ "" ++ (if g2 ≠ "" then ", " ++ resolve rule g2 else "")
            ++ ", count(*)|group having count(*)", none)) ∧
    (∀ (M : RuleEvaluator) (g2 : String),
      (∀ k, k ≠ "" → M.fieldmappings k = rule.fieldmappings k) →
      evaluateAggregationFunc M ctx i (.Count "" g2)
        = evaluateAggregationFunc rule ctx i (.Count "" g2)) := by
  refine ⟨fun f g rg hg hgm => ?_, fun f2 g2 rf hf2 hf2m => ?_, fun M g2 _ => ?_⟩
  · have hrg : resolve rule g = "" := by simp [resolve, hgm]
    refine ⟨?_, ?_, ?_, ?_, fun hf => ?_, ⟨g, Or.inl rfl, ?_⟩⟩
    · rw [render_Average]; refine Prod.ext (String.ext ?_) rfl
      simp [keywordFragment, hg, hrg, String.data_append]
    · rw [render_Sum]; refine Prod.ext (String.ext ?_) rfl
      simp [keywordFragment, hg, hrg, String.data_append]
    · rw [render_Min]; refine Prod.ext (String.ext ?_) rfl
      simp [keywordFragment, hg, hrg, String.data_append]
    · rw [render_Max]; refine Prod.ext (String.ext ?_) rfl
      simp [keywordFragment, hg, hrg, String.data_append]
    · rw [render_Count_field rule ctx i f g hf]; refine Prod.ext (String.ext ?_) rfl
      simp [countFragment, hg, hrg, String.data_append]
    · rw [render_Count_no_field]; simp [hg]
  · have hrf : resolve rule f2 = "" := by simp [resolve, hf2m]
    rw [render_Count_field rule ctx i f2 g2 hf2]; simp [countFragment, hrf]
  · rw [render_Count_no_field, render_Count_no_field]

/-- Claim C16, amended, at the table `{"host": [""], "user": [""], "": ["x"]}`: Average of
`duration` grouped by `host` keeps the separator and Count of `user` keeps the select
clause; and at the table `{"": ["x"]}`, which blanks no name: Count with an empty field
returns the same as under the table without mappings. -/
theorem emptiness_tests_use_raw_names_witness :
    "host" ≠ "" ∧ blankingMappings.fieldmappings "host" = some ("" :: []) ∧
    "user" ≠ "" ∧ blankingMappings.fieldmappings "user" = some ("" :: []) ∧
    evaluateAggregationFunc blankingMappings background 0 (.Average "duration" "host")
      = ("select duration, , avg(duration)|group having avg(duration)", none) ∧
    evaluateAggregationFunc blankingMappings background 0 (.Count "user" "")
      = ("select , count(*)|group having count(*)", none) ∧
    (∀ k, k ≠ "" → noMappings.fieldmappings k = emptyNameMappings.fieldmappings k) ∧
    evaluateAggregationFunc noMappings background 0 (.Count "" "")
      = evaluateAggregationFunc emptyNameMappings background 0 (.Count "" "") :=
  ⟨by decide, by decide, by decide, by decide,
   ((emptiness_tests_use_raw_names blankingMappings background 0).1 "duration" "host" []
      (by decide) (by decide)).1.trans (by decide),
   ((emptiness_tests_use_raw_names blankingMappings background 0).2.1 "user" "" []
      (by decide) (by decide)).trans (by decide),
   fun k hk => by simp [noMappings, emptyNameMappings, hk],
   (emptiness_tests_use_raw_names emptyNameMappings background 0).2.2 noMappings ""
      (fun k hk => by simp [noMappings, emptyNameMappings, hk])⟩

/-! ## The threshold text of the translator -/

/-- Claim C13: for a threshold `t` whose truncation toward zero lies in the machine integer
range, the text the translator appends after the operator is a minus sign exactly when
the truncated value is negative, followed by the decimal representation of its magnitude:
a non-empty run of decimal digits that denotes the magnitude and has no leading zero. The
fraction of `t` is discarded, not rounded. -/
theorem threshold_is_truncated_decimal (rule : RuleEvaluator) (ctx : Context) (i : Int)
    (fn : AggregationFunc) (op s : String) (t : Threshold)
    (h : evaluateAggregationFunc rule ctx i fn = (s, none))
    (hrange : inIntRange (truncate t)) :
    evaluateAggregationExpression rule ctx i (.Comparison fn op t)
      = (s ++ " " ++ op ++ " "
          ++ ((if truncate t < 0 then "-" else "")
              ++ String.mk (Nat.toDigits 10 (truncate t).natAbs)), none) ∧
    Nat.toDigits 10 (truncate t).natAbs ≠ [] ∧
    (∀ c ∈ Nat.toDigits 10 (truncate t).natAbs, c.isDigit = true) ∧
    decimalValue (Nat.toDigits 10 (truncate t).natAbs) = (truncate t).natAbs ∧
    ((Nat.toDigits 10 (truncate t).natAbs).head? = some '0' →
      Nat.toDigits 10 (truncate t).natAbs = ['0']) := by
  refine ⟨?_, toDigits_decimal _⟩
  rw [translate_Comparison_ok rule ctx i fn op t s h, goInt_eq_truncate t hrange, sprintfD_eq]

/-- Claim C13 at the thresholds -5.9, 5.9 and 100 of a Count without names under the
operator `>`: the appended texts are `-5`, `5` and `100`. -/
theorem threshold_is_truncated_decimal_witness :
    inIntRange (truncate (-59 / 10)) ∧
    evaluateAggregationExpression noMappings background 0
        (.Comparison (.Count "" "") ">" (-59 / 10))
      = (", count(*)|group having count(*) > -5", none) ∧
    evaluateAggregationExpression noMappings background 0
        (.Comparison (.Count "" "") ">" (59 / 10))
      = (", count(*)|group having count(*) > 5", none) ∧
    evaluateAggregationExpression noMappings background 0
        (.Comparison (.Count "" "") ">" 100)
      = (", count(*)|group having count(*) > 100", none) :=
  ⟨by rw [truncate_neg_fifty_nine_tenths]; unfold inIntRange; norm_num,
   (threshold_is_truncated_decimal noMappings background 0 (.Count "" "") ">"
      ", count(*)|group having count(*)" (-59 / 10) (by decide)
      (by rw [truncate_neg_fifty_nine_tenths]; unfold inIntRange; norm_num)).1.trans
      (by rw [truncate_neg_fifty_nine_tenths]; decide),
   (threshold_is_truncated_decimal noMappings background 0 (.Count "" "") ">"
      ", count(*)|group having count(*)" (59 / 10) (by decide)
      (by rw [truncate_fifty_nine_tenths]; unfold inIntRange; norm_num)).1.trans
      (by rw [truncate_fifty_nine_tenths]; decide),
   (threshold_is_truncated_decimal noMappings background 0 (.Count "" "") ">"
      ", count(*)|group having count(*)" 100 (by decide)
      (by rw [truncate_hundred]; unfold inIntRange; norm_num)).1.trans
      (by rw [truncate_hundred]; decide)⟩

/-! ## Occurrences of the field name in the aggregate fragment -/

/-- A word without the character `c` starts at a position before a `c` only if it fits
before that `c`. -/
theorem isPrefixOf_append_sep (c : Char) (Y : List Char) :
    ∀ (w t : List Char), c ∉ w → w.isPrefixOf (t ++ c :: Y) = w.isPrefixOf t := by
  intro w
  induction w with
  | nil => intro t _; simp [List.isPrefixOf]
  | cons a as ih =>
    intro t hc
    have hac : a ≠ c := fun h => hc (by simp [h])
    have has : c ∉ as := fun h => hc (List.mem_cons_of_mem a h)
    cases t with
    | nil => simp [List.isPrefixOf, hac]
    | cons b bs => simp [List.isPrefixOf, ih bs has]

/-- A character that is not in the word splits the count of its occurrences. -/
theorem occurrences_append_sep (w X Y : List Char) (c : Char) (hc : c ∉ w) :
    occurrences w (X ++ c :: Y) = occurrences w X + occurrences w Y := by
  unfold occurrences
  rw [List.tails_append, List.countP_append, List.countP_map, List.tails_cons, List.tail_cons]
  congr 1
  apply List.countP_congr
  intro t _
  simp [isPrefixOf_append_sep c Y w t hc]

theorem occurrences_self (w : List Char) (hw : w ≠ []) : occurrences w w = 1 := by
  unfold occurrences
  cases w with
  | nil => exact absurd rfl hw
  | cons a as =>
    rw [List.tails_cons, List.countP_cons]
    have h0 : List.countP (fun t => (a :: as).isPrefixOf t) as.tails = 0 := by
      rw [List.countP_eq_zero]
      intro t ht hp
      have h1 := ((List.mem_tails t as).mp ht).length_le
      have h2 := (List.isPrefixOf_iff_prefix.mp hp).length_le
      simp at h2
      omega
    simp [h0]

theorem occurrences_nil (w : List Char) (hw : w ≠ []) : occurrences w [] = 0 := by
  cases w with
  | nil => exact absurd rfl hw
  | cons a as => simp [occurrences]

/-- In a text of the shape `A(w)B(w)` a non-empty word `w` without parentheses occurs twice
between the parentheses, and otherwise only inside `A` and inside `B`. -/
theorem occurrences_two_calls (w A B : List Char) (hw : w ≠ [])
    (h1 : '(' ∉ w) (h2 : ')' ∉ w) :
    occurrences w (A ++ '(' :: (w ++ ')' :: (B ++ '(' :: (w ++ ')' :: []))))
      = 2 + occurrences w A + occurrences w B := by
  rw [occurrences_append_sep _ _ _ _ h1, occurrences_append_sep _ _ _ _ h2,
    occurrences_append_sep _ _ _ _ h1, occurrences_append_sep _ _ _ _ h2,
    occurrences_self w hw, occurrences_nil w hw]
  omega

/-- A word has no occurrence in a text exactly when it is not a contiguous part of it. -/
theorem occurrences_eq_zero_iff (w T : List Char) :
    occurrences w T = 0 ↔ ¬ w <:+: T := by
  unfold occurrences
  rw [List.countP_eq_zero]
  constructor
  · intro h hin
    obtain ⟨s, t, rfl⟩ := hin
    exact h (w ++ t) ((List.mem_tails _ _).mpr ⟨s, by simp⟩)
      (List.isPrefixOf_iff_prefix.mpr ⟨t, rfl⟩)
  · intro h t ht hp
    obtain ⟨s, hs⟩ := (List.mem_tails _ _).mp ht
    obtain ⟨r, hr⟩ := List.isPrefixOf_iff_prefix.mp hp
    exact h ⟨s, r, by rw [← hs, ← hr]; simp⟩

theorem string_data_ne_nil (w : String) (hw : w ≠ "") : w.data ≠ [] := by
  intro h
  exact hw (String.ext (by simpa using h))

/-- Claim C15, as stated, fails on the code: with no mappings the field `a` occurs five times
in the aggregate fragment of Average (also inside `avg` and `having`), and the field `count`
occurs twice in the aggregate fragment of Count. -/
theorem field_name_occurs_in_fixed_text :
    evaluateAggregationFunc noMappings background 0 (.Average "a" "")
      = ("select a" ++ ", avg(a)|group having avg(a)", none) ∧
    occurrencesIn (resolve noMappings "a") ", avg(a)|group having avg(a)" = 5 ∧
    evaluateAggregationFunc noMappings background 0 (.Count "count" "")
      = ("select count" ++ ", count(*)|group having count(*)", none) ∧
    occurrencesIn (resolve noMappings "count") ", count(*)|group having count(*)" = 2 := by
  refine ⟨by decide, by decide, by decide, by decide⟩

/-- Claim C15, amended: for a non-empty field whose resolved name `w` is non-empty and has no
parenthesis, with empty groupedBy: for Average, Sum, Min and Max the aggregate fragment is
`, k(w)|group having k(w)` and `w` occurs in it two times plus the number of its
occurrences in the fixed texts `, k` and `|group having k`; for Count the aggregate fragment
is the constant `, count(*)|group having count(*)`, in which `w` does not occur unless it
is a contiguous part of that constant. -/
theorem field_name_occurs_twice_outside_fixed_text (rule : RuleEvaluator) (ctx : Context)
    (i : Int) (f : String) (hf : f ≠ "") (hw : resolve rule f ≠ "")
    (h1 : '(' ∉ (resolve rule f).data) (h2 : ')' ∉ (resolve rule f).data) :
    (evaluateAggregationFunc rule ctx i (.Average f "")
        = ("select " ++ resolve rule f
            ++ (", avg(" ++ resolve rule f ++ ")|group having avg(" ++ resolve rule f ++ ")"),
           none) ∧
      occurrencesIn (resolve rule f)
          (", avg(" ++ resolve rule f ++ ")|group having avg(" ++ resolve rule f ++ ")")
        = 2 + occurrencesIn (resolve rule f) ", avg"
            + occurrencesIn (resolve rule f) "|group having avg") ∧
    (evaluateAggregationFunc rule ctx i (.Sum f "")
        = ("select " ++ resolve rule f
            ++ (", sum(" ++ resolve rule f ++ ")|group having sum(" ++ resolve rule f ++ ")"),
           none) ∧
      occurrencesIn (resolve rule f)
          (", sum(" ++ resolve rule f ++ ")|group having sum(" ++ resolve rule f ++ ")")
        = 2 + occurrencesIn (resolve rule f) ", sum"
            + occurrencesIn (resolve rule f) "|group having sum") ∧
    (evaluateAggregationFunc rule ctx i (.Min f "")
        = ("select " ++ resolve rule f
            ++ (", min(" ++ resolve rule f ++ ")|group having min(" ++ resolve rule f ++ ")"),
           none) ∧
      occurrencesIn (resolve rule f)
          (", min(" ++ resolve rule f ++ ")|group having min(" ++ resolve rule f ++ ")")
        = 2 + occurrencesIn (resolve rule f) ", min"
            + occurrencesIn (resolve rule f) "|group having min") ∧
    (evaluateAggregationFunc rule ctx i (.Max f "")
        = ("select " ++ resolve rule f
            ++ (", max(" ++ resolve rule f ++ ")|group having max(" ++ resolve rule f ++ ")"),
           none) ∧
      occurrencesIn (resolve rule f)
          (", max(" ++ resolve rule f ++ ")|group having max(" ++ resolve rule f ++ ")")
        = 2 + occurrencesIn (resolve rule f) ", max"
            + occurrencesIn (resolve rule f) "|group having max") ∧
    (evaluateAggregationFunc rule ctx i (.Count f "")
        = ("select " ++ resolve rule f ++ ", count(*)|group having count(*)", none) ∧
      (occurrencesIn (resolve rule f) ", count(*)|group having count(*)" = 0 ↔
        ¬ (resolve rule f).data <:+: ", count(*)|group having count(*)".data)) := by
  have hne := string_data_ne_nil _ hw
  refine ⟨⟨?_, ?_⟩, ⟨?_, ?_⟩, ⟨?_, ?_⟩, ⟨?_, ?_⟩, ⟨?_, occurrences_eq_zero_iff _ _⟩⟩
  · rw [render_Average]; refine Prod.ext (String.ext ?_) rfl
    simp [keywordFragment, String.data_append]
  · have hT : (", avg(" ++ resolve rule f ++ ")|group having avg(" ++ resolve rule f
        ++ ")").data = ", avg".data ++ '(' :: ((resolve rule f).data ++ ')' ::
          ("|group having avg".data ++ '(' :: ((resolve rule f).data ++ ')' :: []))) := by
      simp [String.data_append]
    unfold occurrencesIn
    rw [hT, occurrences_two_calls _ _ _ hne h1 h2]
  · rw [render_Sum]; refine Prod.ext (String.ext ?_) rfl
    simp [keywordFragment, String.data_append]
  · have hT : (", sum(" ++ resolve rule f ++ ")|group having sum(" ++ resolve rule f
        ++ ")").data = ", sum".data ++ '(' :: ((resolve rule f).data ++ ')' ::
          ("|group having sum".data ++ '(' :: ((resolve rule f).data ++ ')' :: []))) := by
      simp [String.data_append]
    unfold occurrencesIn
    rw [hT, occurrences_two_calls _ _ _ hne h1 h2]
  · rw [render_Min]; refine Prod.ext (String.ext ?_) rfl
    simp [keywordFragment, String.data_append]
  · have hT : (", min(" ++ resolve rule f ++ ")|group having min(" ++ resolve rule f
        ++ ")").data = ", min".data ++ '(' :: ((resolve rule f).data ++ ')' ::
          ("|group having min".data ++ '(' :: ((resolve rule f).data ++ ')' :: []))) := by
      simp [String.data_append]
    unfold occurrencesIn
    rw [hT, occurrences_two_calls _ _ _ hne h1 h2]
  · rw [render_Max]; refine Prod.ext (String.ext ?_) rfl
    simp [keywordFragment, String.data_append]
  · have hT : (", max(" ++ resolve rule f ++ ")|group having max(" ++ resolve rule f
        ++ ")").data = ", max".data ++ '(' :: ((resolve rule f).data ++ ')' ::
          ("|group having max".data ++ '(' :: ((resolve rule f).data ++ ')' :: []))) := by
      simp [String.data_append]
    unfold occurrencesIn
    rw [hT, occurrences_two_calls _ _ _ hne h1 h2]
  · rw [render_Count_field rule ctx i f "" hf]; refine Prod.ext (String.ext ?_) rfl
    simp [countFragment, String.data_append]

/-- Claim C15, amended, at the field `duration` without mappings: the name occurs exactly two
times in the aggregate fragment of Average and not at all in that of Count. -/
theorem field_name_occurs_twice_outside_fixed_text_witness :
    "duration" ≠ "" ∧ resolve noMappings "duration" ≠ "" ∧
    '(' ∉ (resolve noMappings "duration").data ∧ ')' ∉ (resolve noMappings "duration").data ∧
    resolve noMappings "duration" = "duration" ∧
    occurrencesIn (resolve noMappings "duration")
        (", avg(" ++ resolve noMappings "duration" ++ ")|group having avg("
          ++ resolve noMappings "duration" ++ ")") = 2 ∧
    occurrencesIn (resolve noMappings "duration") ", count(*)|group having count(*)" = 0 :=
  ⟨by decide, by decide, by decide, by decide, by decide,
   (field_name_occurs_twice_outside_fixed_text noMappings background 0 "duration"
      (by decide) (by decide) (by decide) (by decide)).1.2.trans (by decide),
   (field_name_occurs_twice_outside_fixed_text noMappings background 0 "duration"
      (by decide) (by decide) (by decide) (by decide)).2.2.2.2.2.mpr (by decide)⟩

end Alterix
